import Mathlib

/-!
Verification of the `search` pallet (src/bin/node/runtime/src/search.rs) of
decengle-chain: a service registry with a signed, hash-chained audit log.

Shallow embedding conventions:
* `AccountId` and `Moment` are naturals; the default `AccountId` (Rust
  `Default::default()`) is `0`, the default `Moment` is `0`.
* Byte strings (`Vec<u8>`) are `List Nat`, each element read modulo 256 where
  byte arithmetic matters (`bytes_to_u64`).
* The two storage maps declared by `decl_storage!` are association lists with
  FRAME map semantics: reads of an absent key yield the `Default` value
  (`defaultInfo` / `defaultHash`), `insert` replaces or appends, and
  `try_mutate` writes back exactly when the closure returns `Ok`.
* `T::Moment as TryInto<u64>` succeeds iff the value fits in 64 bits.
* `T::Balance as TryFrom<u128>` is modelled by an explicit bound
  `balanceMax`: the conversion succeeds iff the amount is at most
  `balanceMax`, and yields the amount itself, as every integral balance
  type does.
* `secp256k1_ecdsa_recover(..).is_ok()` is a pluggable predicate
  `verify : Sig → Msg → Bool`, passed as a parameter.
* Dispatch errors in this FRAME era do not roll back storage writes that
  already happened; each `try_mutate` is individually atomic but the
  extrinsic as a whole is not transactional.  The embedding therefore
  threads the state through every write in program order.
-/

namespace Search

/-- Byte-string tag (`pub type Tag = Vec<u8>`). -/
abbrev Tag := List Nat

/-- Merkle-tree root hash (`pub type RootHash = Vec<u8>`). -/
abbrev RootHash := List Nat

/-- Service name key (`Vec<u8>`). -/
abbrev Name := List Nat

/-- Account identifier; `0` is the `Default` account. -/
abbrev AccountId := Nat

/-- Timestamp; `0` is the `Default` moment. -/
abbrev Moment := Nat

/-- Source `pub struct Sig(pub [u8; 65])`. -/
structure Sig where
  bytes : List Nat
deriving DecidableEq, Repr

/-- Source `pub struct Msg(pub [u8; 32])`. -/
structure Msg where
  bytes : List Nat
deriving DecidableEq, Repr

/-- Source `SearchServiceInfo<AccountId, Moment>`. -/
structure SearchServiceInfo where
  provider : AccountId
  name : List Nat
  url : List Nat
  tags : List Tag
  register_time : Moment
  heat : Nat
deriving DecidableEq, Repr

/-- The `Default` value of `SearchServiceInfo` (derive(Default)). -/
def defaultInfo : SearchServiceInfo :=
  { provider := 0, name := [], url := [], tags := [], register_time := 0, heat := 0 }

/-- Source `SearchServiceHash<AccountId, Moment>`. -/
structure SearchServiceHash where
  provider : AccountId
  root_hash : Option RootHash
  update_time : Moment
deriving DecidableEq, Repr

/-- The `Default` value of `SearchServiceHash` (derive(Default)). -/
def defaultHash : SearchServiceHash :=
  { provider := 0, root_hash := none, update_time := 0 }

/-- The error enum of `decl_error!`. -/
inductive Error where
  | TagsOverflow
  | NameExists
  | RootHashIllegal
  | SignatureIllegal
  | PermissionDenied
  | SignatureTooEarly
  | BalanceConvertErr
  | TimestampConvertErr
deriving DecidableEq, Repr

/-- Source `DispatchResult = Result<(), Error>`. -/
inductive DResult where
  | ok
  | err (e : Error)
deriving DecidableEq, Repr

/-- Lookup in an association-list storage map (`contains_key` distinguishes
this from the defaulted getter). -/
def mapGet {K V : Type} [DecidableEq K] : List (K × V) → K → Option V
  | [], _ => none
  | (k, v) :: rest, q => if k = q then some v else mapGet rest q

/-- The FRAME map read: absent keys yield the `Default` value. -/
def mapGetD {K V : Type} [DecidableEq K] (m : List (K × V)) (q : K) (d : V) : V :=
  (mapGet m q).getD d

/-- Storage `contains_key`. -/
def mapContains {K V : Type} [DecidableEq K] (m : List (K × V)) (q : K) : Bool :=
  (mapGet m q).isSome

/-- Storage `insert`: replace the stored value, or append the pair when absent. -/
def mapInsert {K V : Type} [DecidableEq K] : List (K × V) → K → V → List (K × V)
  | [], q, v => [(q, v)]
  | (k, v') :: rest, q, v =>
      if k = q then (q, v) :: rest else (k, v') :: mapInsert rest q v

/-- The durable state of the pallet: the two `decl_storage!` maps plus the external
balances ledger the reward is deposited into (spec §6, "Reward ledger"). -/
structure State where
  searchServices : List (Name × SearchServiceInfo)
  ssHashes : List (Name × SearchServiceHash)
  balances : List (AccountId × Nat)
deriving DecidableEq, Repr

/-- Genesis: both maps empty, no balances. -/
def initState : State := { searchServices := [], ssHashes := [], balances := [] }

/-- The defaulted getter `get_ss` of the `SearchServices` map. -/
def get_ss (s : State) (name : Name) : SearchServiceInfo :=
  mapGetD s.searchServices name defaultInfo

/-- The defaulted getter `get_hash` of the `SsHashes` map. -/
def get_hash (s : State) (name : Name) : SearchServiceHash :=
  mapGetD s.ssHashes name defaultHash

/-- Source `const REWARD_PER_HEAT: u128 = 1000`. -/
def REWARD_PER_HEAT : Nat := 1000

/-- Source `Module::bytes_to_u64`: big-endian read of 8 bytes
(`u64::from_be_bytes`); each byte taken modulo 256 to reflect `u8`. -/
def bytes_to_u64 (data : List Nat) : Nat :=
  data.foldl (fun acc b => acc * 256 + b % 256) 0

/-- The loop of `Module::validate_signatures`: for each `(sig, msg)` pair in
order, extract the embedded big-endian timestamp from `msg.0[0..8]`, fail
`SignatureTooEarly` when it is below the anchor, else fail
`SignatureIllegal` when recovery fails; short-circuiting. -/
def validate_loop (verify : Sig → Msg → Bool) : List (Sig × Msg) → Nat → DResult
  | [], _ => .ok
  | (sig, msg) :: rest, last_ts =>
      let sign_ts := bytes_to_u64 (msg.bytes.take 8)
      if sign_ts < last_ts then .err .SignatureTooEarly
      else if verify sig msg = false then .err .SignatureIllegal
      else validate_loop verify rest last_ts

/-- Source `Module::validate_signatures`: convert the anchor `Moment` to `u64`
(failing `TimestampConvertErr` when it does not fit) and run the loop. -/
def validate_signatures (verify : Sig → Msg → Bool) (signs : List (Sig × Msg))
    (ts : Moment) : DResult :=
  if ts < 2 ^ 64 then validate_loop verify signs ts
  else .err .TimestampConvertErr

/-- Source `Module::is_in_tags(targets, range)`: the source keeps a single iterator
over `range` across the outer loop over `targets`, so each target is searched
for only in the part of `range` strictly after the previous match. -/
def is_in_tags : List Tag → List Tag → Bool
  | [], _ => true
  | _ :: _, [] => false
  | target :: ts, tag :: rest =>
      if target = tag then is_in_tags ts rest
      else is_in_tags (target :: ts) rest

/-- Dispatchable `register_search_service(origin, name, url, tags)`.
`provider` is the already-resolved signed origin, `now` the current value
of the timestamp pallet. -/
def register_search_service (s : State) (provider : AccountId) (name : Name)
    (url : List Nat) (tags : List Tag) (now : Moment) : State × DResult :=
  if mapContains s.searchServices name then (s, .err .NameExists)
  else if 10 < tags.length then (s, .err .TagsOverflow)
  else
    let ss_info : SearchServiceInfo :=
      { provider := provider, name := name, url := url, tags := tags,
        register_time := now, heat := 0 }
    let ss_hash : SearchServiceHash :=
      { provider := provider, root_hash := none, update_time := now }
    ({ s with
        searchServices := mapInsert s.searchServices name ss_info,
        ssHashes := mapInsert s.ssHashes name ss_hash }, .ok)

/-- Dispatchable `upload_searched_info(origin, name, signs, root_hash,
last_root_hash)`.  `ssp` is the signed origin, `now` the current timestamp,
`verify` the signature scheme, `balanceMax` the bound of `T::Balance`.
Mirrors the order of effects in the source: the `try_mutate` on `SsHashes`
commits before `validate_signatures` runs, and the validator is anchored
to the re-read (already mutated) `update_time`. -/
def upload_searched_info (verify : Sig → Msg → Bool) (balanceMax : Nat)
    (s : State) (ssp : AccountId) (name : Name) (signs : List (Sig × Msg))
    (root_hash : RootHash) (last_root_hash : Option RootHash)
    (now : Moment) : State × DResult :=
  let signs_len := signs.length
  let sh := get_hash s name
  if sh.provider ≠ ssp then (s, .err .PermissionDenied)
  else if sh.root_hash ≠ last_root_hash then (s, .err .RootHashIllegal)
  else
    let sh2 := { sh with root_hash := some root_hash, update_time := now }
    let s1 := { s with ssHashes := mapInsert s.ssHashes name sh2 }
    let ss_hash := get_hash s1 name
    match validate_signatures verify signs ss_hash.update_time with
    | .err e => (s1, .err e)
    | .ok =>
        let ssi := get_ss s1 name
        let ssi2 := { ssi with heat := signs_len }
        let s2 := { s1 with searchServices := mapInsert s1.searchServices name ssi2 }
        let amount := signs_len * REWARD_PER_HEAT
        if balanceMax < amount then (s2, .err .BalanceConvertErr)
        else
          let s3 := { s2 with
            balances := mapInsert s2.balances ssp (mapGetD s2.balances ssp 0 + amount) }
          (s3, .ok)

/-- Dispatchable `recommend_ss`: the event payload, up to 10 records in
storage iteration order. -/
def recommend_ss (s : State) : State × DResult × List SearchServiceInfo :=
  (s, .ok, (s.searchServices.map Prod.snd).take 10)

/-- Dispatchable `get_ss_by_tags(origin, tags)`: the event payload collects
every stored record `ssi` with `is_in_tags tags ssi.tags`. -/
def get_ss_by_tags (s : State) (tags : List Tag) :
    State × DResult × List SearchServiceInfo :=
  (s, .ok, (s.searchServices.map Prod.snd).filter (fun ssi => is_in_tags tags ssi.tags))

/-- Dispatchable `get_ss_by_name(origin, ss_name)`: emits
`Self::get_ss(ss_name)`, the defaulted getter. -/
def get_ss_by_name (s : State) (ss_name : Name) :
    State × DResult × SearchServiceInfo :=
  (s, .ok, get_ss s ss_name)

/-! ### Concrete fixtures used by counterexamples and witnesses -/

/-- A 65-byte all-zero signature. -/
def sig0 : Sig := ⟨List.replicate 65 0⟩

/-- A 32-byte all-zero message: embedded timestamp 0. -/
def msg0 : Msg := ⟨List.replicate 32 0⟩

/-- A 32-byte message whose first 8 bytes encode the timestamp 7. -/
def msg7 : Msg := ⟨[0, 0, 0, 0, 0, 0, 0, 7] ++ List.replicate 24 0⟩

/-- A 32-byte message whose first 8 bytes encode the timestamp 10. -/
def msg10 : Msg := ⟨[0, 0, 0, 0, 0, 0, 0, 10] ++ List.replicate 24 0⟩

/-- A signature scheme that accepts everything (recovery always `Ok`). -/
def alwaysVerify : Sig → Msg → Bool := fun _ _ => true

/-- State after registering service `[1]` (url `[2]`, tags `[[3]]`) by
account `7` at time `5`. -/
def regState : State := (register_search_service initState 7 [1] [2] [[3]] 5).1

/-- State after registering service `[1]` with tags `[[1], [2]]` by
account `7` at time `5`. -/
def tagState : State := (register_search_service initState 7 [1] [2] [[1], [2]] 5).1

/-- Cross-entity invariant of spec §3: at every name the stored chain head
and the stored service record agree on the owning provider (an absent
entry reads as the default record, whose provider is the default account
`0`). -/
def ownersAgree (s : State) : Prop :=
  ∀ name : Name, (get_hash s name).provider = (get_ss s name).provider

/-- One dispatch of either state-mutating extrinsic, with arbitrary
arguments, signature scheme, balance bound and clock value. -/
inductive Step : State → State → Prop where
  | register (s : State) (provider : AccountId) (name : Name) (url : List Nat)
      (tags : List Tag) (now : Moment) :
      Step s (register_search_service s provider name url tags now).1
  | upload (verify : Sig → Msg → Bool) (balanceMax : Nat) (s : State)
      (ssp : AccountId) (name : Name) (signs : List (Sig × Msg))
      (root : RootHash) (last : Option RootHash) (now : Moment) :
      Step s (upload_searched_info verify balanceMax s ssp name signs root last now).1

/-- States reachable from genesis through any sequence of `register` and
`commit` dispatches. -/
inductive Reachable : State → Prop where
  | init : Reachable initState
  | step {s s2 : State} : Reachable s → Step s s2 → Reachable s2

/-! ### Association-list storage map lemmas -/

/-- Reading an inserted map: the inserted key yields the new value, every
other key reads as before. -/
theorem mapGet_mapInsert {K V : Type} [DecidableEq K] (m : List (K × V)) (k q : K) (v : V) :
    mapGet (mapInsert m k v) q = if k = q then some v else mapGet m q := by
  induction m with
  | nil => simp [mapInsert, mapGet]
  | cons p rest ih =>
    obtain ⟨a, b⟩ := p
    by_cases hak : a = k
    · subst hak
      by_cases haq : a = q <;> simp [mapInsert, mapGet, haq]
    · by_cases haq : a = q
      · subst haq
        have : ¬ k = a := fun h => hak h.symm
        simp [mapInsert, mapGet, hak, this]
      · simp [mapInsert, mapGet, hak, haq, ih]

/-- Defaulted read of an inserted map at the inserted key. -/
theorem mapGetD_mapInsert_self {K V : Type} [DecidableEq K] (m : List (K × V))
    (k : K) (v d : V) : mapGetD (mapInsert m k v) k d = v := by
  simp [mapGetD, mapGet_mapInsert]

/-- Defaulted read of an inserted map away from the inserted key. -/
theorem mapGetD_mapInsert_ne {K V : Type} [DecidableEq K] (m : List (K × V))
    (k q : K) (v d : V) (h : k ≠ q) :
    mapGetD (mapInsert m k v) q d = mapGetD m q d := by
  simp [mapGetD, mapGet_mapInsert, h]

/-- Reading the hash map of a literal state. -/
theorem get_hash_mk (a : List (Name × SearchServiceInfo)) (b : List (Name × SearchServiceHash))
    (c : List (AccountId × Nat)) (name : Name) :
    get_hash { searchServices := a, ssHashes := b, balances := c } name =
      mapGetD b name defaultHash := rfl

/-- Reading the record map of a literal state. -/
theorem get_ss_mk (a : List (Name × SearchServiceInfo)) (b : List (Name × SearchServiceHash))
    (c : List (AccountId × Nat)) (name : Name) :
    get_ss { searchServices := a, ssHashes := b, balances := c } name =
      mapGetD a name defaultInfo := rfl

/-! ### Branch analysis of `upload_searched_info` -/

/-- Characterization of a successful commit: it requires the stored head
to name the caller as provider and to carry exactly the claimed previous
root, the batch to validate against the anchor `now` (the value the
re-read head holds after the first mutation), and the reward to fit the
balance type; the final state rewrites both entries at `name` and credits
the reward. -/
theorem upload_ok_characterization (verify : Sig → Msg → Bool) (balanceMax : Nat)
    (s : State) (ssp : AccountId) (name : Name) (signs : List (Sig × Msg))
    (root : RootHash) (last : Option RootHash) (now : Moment)
    (h : (upload_searched_info verify balanceMax s ssp name signs root last now).2 = DResult.ok) :
    (get_hash s name).provider = ssp ∧
    (get_hash s name).root_hash = last ∧
    validate_signatures verify signs now = DResult.ok ∧
    signs.length * REWARD_PER_HEAT ≤ balanceMax ∧
    (upload_searched_info verify balanceMax s ssp name signs root last now).1 =
      { searchServices := mapInsert s.searchServices name
          { get_ss s name with heat := signs.length },
        ssHashes := mapInsert s.ssHashes name
          { get_hash s name with root_hash := some root, update_time := now },
        balances := mapInsert s.balances ssp
          (mapGetD s.balances ssp 0 + signs.length * REWARD_PER_HEAT) } := by
  unfold upload_searched_info at h ⊢
  by_cases h1 : (get_hash s name).provider = ssp
  case neg => simp [h1] at h
  by_cases h2 : (get_hash s name).root_hash = last
  case neg => simp [h1, h2] at h
  simp only [h1, h2, ne_eq, not_true_eq_false, if_false, ite_false] at h ⊢
  simp only [get_hash_mk, get_ss_mk, mapGetD_mapInsert_self] at h ⊢
  cases hval : validate_signatures verify signs now with
  | err e => rw [hval] at h; simp at h
  | ok =>
    rw [hval] at h
    by_cases h4 : balanceMax < signs.length * REWARD_PER_HEAT
    · simp [h4] at h
    · simp only [if_neg h4]
      refine ⟨by trivial, by trivial, by simp, Nat.le_of_not_lt h4, ?_⟩
      simp [get_ss]

/-- When the permission and root checks pass and the batch validates, a
reward that does not fit the balance type makes the commit fail with
`BalanceConvertErr` (and not panic). -/
theorem upload_balance_convert_err (verify : Sig → Msg → Bool) (balanceMax : Nat)
    (s : State) (ssp : AccountId) (name : Name) (signs : List (Sig × Msg))
    (root : RootHash) (last : Option RootHash) (now : Moment)
    (h1 : (get_hash s name).provider = ssp)
    (h2 : (get_hash s name).root_hash = last)
    (h3 : validate_signatures verify signs now = DResult.ok)
    (h4 : balanceMax < signs.length * REWARD_PER_HEAT) :
    (upload_searched_info verify balanceMax s ssp name signs root last now).2 =
      DResult.err Error.BalanceConvertErr := by
  unfold upload_searched_info
  simp only [h1, h2, ne_eq, not_true_eq_false, if_false, ite_false]
  simp only [get_hash_mk, get_ss_mk, mapGetD_mapInsert_self]
  rw [h3]
  simp [h4]

/-- The chain head stored by a successful registration. -/
theorem register_head (s : State) (provider : AccountId) (name : Name)
    (url : List Nat) (tags : List Tag) (now : Moment)
    (hfresh : mapContains s.searchServices name = false)
    (hlen : tags.length ≤ 10) :
    get_hash (register_search_service s provider name url tags now).1 name =
      { provider := provider, root_hash := none, update_time := now } := by
  have hng : ¬ 10 < tags.length := Nat.not_lt.mpr hlen
  unfold register_search_service
  simp [hfresh, hng, get_hash_mk, mapGetD_mapInsert_self]

/-! ### Preservation of the provider invariant -/

/-- Registration preserves provider agreement: both entries are created
with the same provider, other names are untouched. -/
theorem register_preserves_ownersAgree (s : State) (provider : AccountId)
    (name : Name) (url : List Nat) (tags : List Tag) (now : Moment)
    (hinv : ownersAgree s) :
    ownersAgree (register_search_service s provider name url tags now).1 := by
  intro n
  unfold register_search_service
  by_cases hc : mapContains s.searchServices name
  · simp only [hc, if_true, ite_true]
    exact hinv n
  · by_cases hl : 10 < tags.length
    · simp only [hc, hl, if_true, ite_true, if_false, ite_false, Bool.false_eq_true]
      exact hinv n
    · simp only [hc, hl, if_false, ite_false, Bool.false_eq_true]
      by_cases hn : name = n
      · subst hn
        simp [get_hash_mk, get_ss_mk, mapGetD_mapInsert_self]
      · simp only [get_hash_mk, get_ss_mk, mapGetD_mapInsert_ne _ _ _ _ _ hn]
        exact hinv n

/-- Commit preserves provider agreement: neither `try_mutate` closure
touches the provider field, in any branch. -/
theorem upload_preserves_ownersAgree (verify : Sig → Msg → Bool) (balanceMax : Nat)
    (s : State) (ssp : AccountId) (name : Name) (signs : List (Sig × Msg))
    (root : RootHash) (last : Option RootHash) (now : Moment)
    (hinv : ownersAgree s) :
    ownersAgree (upload_searched_info verify balanceMax s ssp name signs root last now).1 := by
  have hi := hinv name
  simp only [get_hash, get_ss] at hi
  intro n
  unfold upload_searched_info
  by_cases h1 : (get_hash s name).provider = ssp
  case neg =>
    simp only [h1, ne_eq, if_true, ite_true, if_false, ite_false, not_false_eq_true]
    exact hinv n
  by_cases h2 : (get_hash s name).root_hash = last
  case neg =>
    simp only [h1, h2, ne_eq, not_true_eq_false, if_false, ite_false, if_true, ite_true,
      not_false_eq_true]
    exact hinv n
  simp only [h1, h2, ne_eq, not_true_eq_false, if_false, ite_false]
  simp only [get_hash_mk, get_ss_mk, mapGetD_mapInsert_self]
  have hps : ssp = (mapGetD s.searchServices name defaultInfo).provider := by
    rw [← h1]
    simp only [get_hash]
    exact hi
  cases hval : validate_signatures verify signs now with
  | err e =>
    by_cases hn : name = n
    · subst hn
      simp [get_hash_mk, get_ss_mk, mapGetD_mapInsert_self, get_ss, hps]
    · simp only [get_hash_mk, get_ss_mk, mapGetD_mapInsert_ne _ _ _ _ _ hn]
      exact hinv n
  | ok =>
    by_cases h4 : balanceMax < signs.length * REWARD_PER_HEAT
    · simp only [if_pos h4]
      by_cases hn : name = n
      · subst hn
        simp [get_hash_mk, get_ss_mk, mapGetD_mapInsert_self, hps]
      · simp only [get_hash_mk, get_ss_mk, mapGetD_mapInsert_ne _ _ _ _ _ hn]
        exact hinv n
    · simp only [if_neg h4]
      by_cases hn : name = n
      · subst hn
        simp [get_hash_mk, get_ss_mk, mapGetD_mapInsert_self, hps]
      · simp only [get_hash_mk, get_ss_mk, mapGetD_mapInsert_ne _ _ _ _ _ hn]
        exact hinv n

/-! ### The semantics of `is_in_tags` -/

/-- The single-iterator scan of `is_in_tags` succeeds exactly when `targets`
is an order-respecting subsequence of `range` (greedy matching is complete
for subsequence search). -/
theorem is_in_tags_iff_sublist (targets range : List Tag) :
    is_in_tags targets range = true ↔ List.Sublist targets range := by
  induction range generalizing targets with
  | nil =>
    cases targets with
    | nil => simp [is_in_tags]
    | cons t ts => simp [is_in_tags]
  | cons r rs ih =>
    cases targets with
    | nil => simp [is_in_tags, List.nil_sublist]
    | cons t ts =>
      by_cases htr : t = r
      · subst htr
        have hred : is_in_tags (t :: ts) (t :: rs) = is_in_tags ts rs := by
          simp [is_in_tags]
        rw [hred, ih]
        constructor
        · exact fun hs => List.Sublist.cons₂ t hs
        · intro hs
          cases hs with
          | cons _ h =>
            exact (List.sublist_of_cons_sublist (List.Sublist.refl (t :: ts))).trans h
          | cons₂ _ h => exact h
      · have hred : is_in_tags (t :: ts) (r :: rs) = is_in_tags (t :: ts) rs := by
          simp [is_in_tags, htr]
        rw [hred, ih]
        constructor
        · exact fun hs => List.Sublist.cons r hs
        · intro hs
          cases hs with
          | cons _ h => exact h
          | cons₂ _ h => exact absurd rfl htr

/-! ### Claim theorems -/

/-- C1: the claim asserts that a commit failing `SignatureTooEarly` leaves
both stores unchanged.  On the code this fails: `upload_searched_info`
commits the `try_mutate` on `SsHashes` before running
`validate_signatures`, so at the concrete input below the commit returns
`SignatureTooEarly` while the stored `CommitHead` has already changed
(`root_hash` became `some [9]`, `update_time` became `10`).  The spec
itself (§5, §9) marks this mutate-then-validate ordering as a defect of
the source. -/
theorem upload_sigTooEarly_mutates_commitHead :
    (upload_searched_info alwaysVerify (2 ^ 64) regState 7 [1]
        [(sig0, msg0)] [9] none 10).2 = DResult.err Error.SignatureTooEarly ∧
    get_hash (upload_searched_info alwaysVerify (2 ^ 64) regState 7 [1]
        [(sig0, msg0)] [9] none 10).1 [1] ≠ get_hash regState [1] ∧
    get_hash (upload_searched_info alwaysVerify (2 ^ 64) regState 7 [1]
        [(sig0, msg0)] [9] none 10).1 [1] =
      { provider := 7, root_hash := some [9], update_time := 10 } := by decide

/-- C2: the claim asserts the validator is anchored to the `updated_at`
stored when the commit begins.  On the code this fails: the anchor is
re-read after the `try_mutate` has already set `update_time := now`.  At
the concrete input below, the registered head has `update_time = 5` and
the single batch entry embeds timestamp `7`: anchored at the stored `5`
the batch passes the validator, yet the commit (at `now = 10`) fails
`SignatureTooEarly` because the code anchors at `now`. -/
theorem upload_anchor_is_post_mutation_now :
    (get_hash regState [1]).update_time = 5 ∧
    bytes_to_u64 (msg7.bytes.take 8) = 7 ∧
    validate_signatures alwaysVerify [(sig0, msg7)]
        (get_hash regState [1]).update_time = DResult.ok ∧
    (upload_searched_info alwaysVerify (2 ^ 64) regState 7 [1]
        [(sig0, msg7)] [9] none 10).2 = DResult.err Error.SignatureTooEarly := by decide

/-- C3 counterexample: the claim asserts `get_ss_by_tags` returns every
record whose tags contain all target tags regardless of order.  At the
concrete input below, the registered record has tags `[[1], [2]]` and
both targets `[2]` and `[1]` occur among them, yet `get_ss_by_tags` with
targets `[[2], [1]]` returns the empty list: the source reuses one
iterator over the record tags across all targets, so matches must occur
in order. -/
theorem get_ss_by_tags_order_sensitive :
    ((get_ss tagState [1]).tags = [[1], [2]] ∧
      mapContains tagState.searchServices [1] = true ∧
      (∀ t, t ∈ [[2], [1]] → t ∈ (get_ss tagState [1]).tags)) ∧
    (get_ss_by_tags tagState [[2], [1]]).2.2 = [] := by decide

/-- C3 (amended): `get_ss_by_tags` returns exactly the records whose tag
sequence contains the target sequence as an order-respecting subsequence
(each target after the first is matched strictly after the previous
match); with an empty target list it returns every record. -/
theorem get_ss_by_tags_characterization (s : State) (targets : List Tag) :
    (∀ ssi, ssi ∈ (get_ss_by_tags s targets).2.2 ↔
        ssi ∈ s.searchServices.map Prod.snd ∧ List.Sublist targets ssi.tags) ∧
    (get_ss_by_tags s []).2.2 = s.searchServices.map Prod.snd := by
  constructor
  · intro ssi
    simp [get_ss_by_tags, List.mem_filter, is_in_tags_iff_sublist]
  · simp [get_ss_by_tags, is_in_tags]

/-- C6 counterexample: the claim asserts `get_ss_by_name` yields an absent
result for a never-registered name.  On the code the storage getter is
default-valued: for the never-registered name `[1]` in the genesis state
the emitted payload is the full `Default` record, not an absent marker. -/
theorem get_ss_by_name_absent_returns_default :
    mapGet initState.searchServices [1] = none ∧
    (get_ss_by_name initState [1]).2.2 = defaultInfo := by decide

/-- C6 (amended): `get_ss_by_name` emits the single registered record when
the name is present, and emits the `Default`-valued record (default
provider, empty fields, zero heat) when the name has never been
registered. -/
theorem get_ss_by_name_spec (s : State) (name : Name) :
    (∀ ssi, mapGet s.searchServices name = some ssi →
        (get_ss_by_name s name).2.2 = ssi) ∧
    (mapGet s.searchServices name = none →
        (get_ss_by_name s name).2.2 = defaultInfo) := by
  constructor
  · intro ssi h
    simp [get_ss_by_name, get_ss, mapGetD, h]
  · intro h
    simp [get_ss_by_name, get_ss, mapGetD, h]

/-- C6 witness: both branches of the amended claim at concrete inputs:
the registered name `[1]` of `regState` yields its stored record, the
never-registered name `[2]` yields the default record. -/
theorem get_ss_by_name_spec_witness :
    (get_ss_by_name regState [1]).2.2 =
      { provider := 7, name := [1], url := [2], tags := [[3]],
        register_time := 5, heat := 0 } ∧
    (get_ss_by_name regState [2]).2.2 = defaultInfo := by
  constructor
  · exact (get_ss_by_name_spec regState [1]).1 _ (by decide)
  · exact (get_ss_by_name_spec regState [2]).2 (by decide)

/-- C4: after a successful commit of a batch of size `k` with root `root`,
the stored head carries `root_hash = some root` and `update_time = now`,
the stored record carries `heat = k` exactly; a subsequent commit on the
same name succeeds only when it presents the stored root as its claimed
previous root; and a first commit after a fresh registration that claims
any `some hroot` as previous root fails with the root-hash-mismatch
error. -/
theorem upload_ok_postconditions (verify : Sig → Msg → Bool) (balanceMax : Nat)
    (s : State) (ssp : AccountId) (name : Name) (signs : List (Sig × Msg))
    (root : RootHash) (last : Option RootHash) (now : Moment)
    (h : (upload_searched_info verify balanceMax s ssp name signs root last now).2 = DResult.ok) :
    (get_hash (upload_searched_info verify balanceMax s ssp name signs root last now).1 name).root_hash
        = some root ∧
    (get_ss (upload_searched_info verify balanceMax s ssp name signs root last now).1 name).heat
        = signs.length ∧
    (get_hash (upload_searched_info verify balanceMax s ssp name signs root last now).1 name).update_time
        = now ∧
    (∀ (verify2 : Sig → Msg → Bool) (balanceMax2 : Nat) (ssp2 : AccountId)
        (signs2 : List (Sig × Msg)) (root2 : RootHash) (last2 : Option RootHash) (now2 : Moment),
        (upload_searched_info verify2 balanceMax2
            (upload_searched_info verify balanceMax s ssp name signs root last now).1
            ssp2 name signs2 root2 last2 now2).2 = DResult.ok →
        last2 = some root) ∧
    (∀ (s0 : State) (prov : AccountId) (name0 : Name) (url0 : List Nat) (tags0 : List Tag)
        (rnow : Moment) (verify2 : Sig → Msg → Bool) (balanceMax2 : Nat)
        (signs2 : List (Sig × Msg)) (root2 : RootHash) (hroot : RootHash) (now2 : Moment),
        mapContains s0.searchServices name0 = false →
        tags0.length ≤ 10 →
        (upload_searched_info verify2 balanceMax2
            (register_search_service s0 prov name0 url0 tags0 rnow).1
            prov name0 signs2 root2 (some hroot) now2).2 =
          DResult.err Error.RootHashIllegal) := by
  obtain ⟨h1, h2, h3, h4, hstate⟩ :=
    upload_ok_characterization verify balanceMax s ssp name signs root last now h
  rw [hstate]
  refine ⟨?_, ?_, ?_, ?_, ?_⟩
  · simp [get_hash_mk, mapGetD_mapInsert_self]
  · simp [get_ss_mk, mapGetD_mapInsert_self]
  · simp [get_hash_mk, mapGetD_mapInsert_self]
  · intro verify2 balanceMax2 ssp2 signs2 root2 last2 now2 h5
    have hc2 := upload_ok_characterization verify2 balanceMax2 _ ssp2 name signs2 root2 last2 now2 h5
    have hr := hc2.2.1
    rw [get_hash_mk, mapGetD_mapInsert_self] at hr
    exact hr.symm
  · intro s0 prov name0 url0 tags0 rnow verify2 balanceMax2 signs2 root2 hroot now2 hfresh hlen
    have hreg := register_head s0 prov name0 url0 tags0 rnow hfresh hlen
    unfold upload_searched_info
    rw [hreg]
    simp

/-- C4 witness: account `7` commits a single entry (embedded timestamp
`10`) on its registered service at time `10`: the commit succeeds, the
head holds `some [9]` at time `10`, and the heat of the record is `1`. -/
theorem upload_ok_postconditions_witness :
    (upload_searched_info alwaysVerify (2 ^ 64) regState 7 [1] [(sig0, msg10)] [9] none 10).2
        = DResult.ok ∧
    (get_hash (upload_searched_info alwaysVerify (2 ^ 64) regState 7 [1]
        [(sig0, msg10)] [9] none 10).1 [1]).root_hash = some [9] ∧
    (get_ss (upload_searched_info alwaysVerify (2 ^ 64) regState 7 [1]
        [(sig0, msg10)] [9] none 10).1 [1]).heat = 1 ∧
    (get_hash (upload_searched_info alwaysVerify (2 ^ 64) regState 7 [1]
        [(sig0, msg10)] [9] none 10).1 [1]).update_time = 10 := by
  have hok : (upload_searched_info alwaysVerify (2 ^ 64) regState 7 [1]
      [(sig0, msg10)] [9] none 10).2 = DResult.ok := by decide
  have h := upload_ok_postconditions alwaysVerify (2 ^ 64) regState 7 [1]
    [(sig0, msg10)] [9] none 10 hok
  exact ⟨hok, h.1, h.2.1, h.2.2.1⟩

/-- C5: registration fails `NameExists` on a present name leaving the
state (hence the first registration) unchanged; on a fresh name it fails
`TagsOverflow` exactly when more than 10 tags are supplied, again
changing nothing, and otherwise inserts the service record (`heat = 0`,
`register_time = now`) and the paired chain head (`root_hash = none`,
`update_time = now`) in one step. -/
theorem register_search_service_spec (s : State) (provider : AccountId)
    (name : Name) (url : List Nat) (tags : List Tag) (now : Moment) :
    (mapContains s.searchServices name = true →
        register_search_service s provider name url tags now = (s, DResult.err Error.NameExists)) ∧
    (mapContains s.searchServices name = false →
        (10 < tags.length →
            register_search_service s provider name url tags now = (s, DResult.err Error.TagsOverflow)) ∧
        (tags.length ≤ 10 →
            register_search_service s provider name url tags now =
              ({ s with
                  searchServices := mapInsert s.searchServices name
                    { provider := provider, name := name, url := url, tags := tags,
                      register_time := now, heat := 0 },
                  ssHashes := mapInsert s.ssHashes name
                    { provider := provider, root_hash := none, update_time := now } },
                DResult.ok))) := by
  refine ⟨?_, ?_⟩
  · intro h
    simp [register_search_service, h]
  · intro h
    refine ⟨?_, ?_⟩
    · intro hlen
      simp [register_search_service, h, hlen]
    · intro hlen
      have hng : ¬ 10 < tags.length := Nat.not_lt.mpr hlen
      simp [register_search_service, h, hng]

/-- C5 witness: re-registering the taken name `[1]` fails `NameExists`
and leaves the state unchanged; registering a fresh name with 11 tags
fails `TagsOverflow`; with exactly 10 tags it succeeds. -/
theorem register_search_service_spec_witness :
    register_search_service regState 8 [1] [] [] 6 = (regState, DResult.err Error.NameExists) ∧
    (register_search_service initState 8 [2] [] (List.replicate 11 [0]) 6).2
        = DResult.err Error.TagsOverflow ∧
    (register_search_service initState 8 [2] [] (List.replicate 10 [0]) 6).2
        = DResult.ok := by
  refine ⟨?_, ?_, ?_⟩
  · exact (register_search_service_spec regState 8 [1] [] [] 6).1 (by decide)
  · have h := ((register_search_service_spec initState 8 [2] []
      (List.replicate 11 [0]) 6).2 (by decide)).1 (by decide)
    rw [h]
  · have h := ((register_search_service_spec initState 8 [2] []
      (List.replicate 10 [0]) 6).2 (by decide)).2 (by decide)
    rw [h]

/-- C7: a successful commit of a batch of size `k` credits the caller
with exactly `k * REWARD_PER_HEAT = k * 1000` units, in exact `Nat`
arithmetic; and when the amount does not fit the balance type (exceeds
`balanceMax`) the commit reports `BalanceConvertErr` instead of
panicking. -/
theorem upload_reward_exact (verify : Sig → Msg → Bool) (balanceMax : Nat)
    (s : State) (ssp : AccountId) (name : Name) (signs : List (Sig × Msg))
    (root : RootHash) (last : Option RootHash) (now : Moment) :
    ((upload_searched_info verify balanceMax s ssp name signs root last now).2 = DResult.ok →
        mapGetD (upload_searched_info verify balanceMax s ssp name signs root last now).1.balances ssp 0 =
          mapGetD s.balances ssp 0 + signs.length * REWARD_PER_HEAT) ∧
    ((get_hash s name).provider = ssp → (get_hash s name).root_hash = last →
        validate_signatures verify signs now = DResult.ok →
        balanceMax < signs.length * REWARD_PER_HEAT →
        (upload_searched_info verify balanceMax s ssp name signs root last now).2 =
          DResult.err Error.BalanceConvertErr) := by
  constructor
  · intro h
    have hc := upload_ok_characterization verify balanceMax s ssp name signs root last now h
    rw [hc.2.2.2.2]
    simp [mapGetD_mapInsert_self]
  · exact upload_balance_convert_err verify balanceMax s ssp name signs root last now

/-- C7 witness: the successful single-entry commit credits account `7`
with exactly `1000`; the same commit under a balance type bounded by
`10` fails `BalanceConvertErr`. -/
theorem upload_reward_exact_witness :
    mapGetD (upload_searched_info alwaysVerify (2 ^ 64) regState 7 [1]
        [(sig0, msg10)] [9] none 10).1.balances 7 0 = 1000 ∧
    (upload_searched_info alwaysVerify 10 regState 7 [1]
        [(sig0, msg10)] [9] none 10).2 = DResult.err Error.BalanceConvertErr := by
  constructor
  · have h := (upload_reward_exact alwaysVerify (2 ^ 64) regState 7 [1]
      [(sig0, msg10)] [9] none 10).1 (by decide)
    rw [h]
    decide
  · exact (upload_reward_exact alwaysVerify 10 regState 7 [1]
      [(sig0, msg10)] [9] none 10).2 (by decide) (by decide) (by decide) (by decide)

/-- C8: in every state reachable from genesis through any sequence of
register and commit dispatches, the stored chain head and the stored
service record agree at every name on the owning provider; neither
operation ever reassigns one independently of the other. -/
theorem reachable_ownersAgree (s : State) (h : Reachable s) : ownersAgree s := by
  induction h with
  | init => intro n; rfl
  | step hr hstep ih =>
    cases hstep with
    | register s3 provider name url tags now =>
      exact register_preserves_ownersAgree _ _ _ _ _ _ ih
    | upload verify balanceMax s3 ssp name signs root last now =>
      exact upload_preserves_ownersAgree _ _ _ _ _ _ _ _ _ ih

/-- C8 witness: the invariant applied at the reachable state obtained by
one registration from genesis. -/
theorem reachable_ownersAgree_witness :
    (get_hash regState [1]).provider = (get_ss regState [1]).provider := by
  have hreach : Reachable regState :=
    Reachable.step Reachable.init (Step.register initState 7 [1] [2] [[3]] 5)
  exact reachable_ownersAgree regState hreach [1]

/-- C10: a commit on a never-registered name reads the default chain head
(default provider `0`, `root_hash = none`), so whenever the caller is not
the default account it fails `PermissionDenied` — there is no dedicated
not-found error — and the state, in particular both stores, is left
exactly as it was. -/
theorem upload_unregistered_permission_denied (verify : Sig → Msg → Bool)
    (balanceMax : Nat) (s : State) (ssp : AccountId) (name : Name)
    (signs : List (Sig × Msg)) (root : RootHash) (last : Option RootHash)
    (now : Moment) (habs : mapGet s.ssHashes name = none) (hne : ssp ≠ 0) :
    get_hash s name = defaultHash ∧
    upload_searched_info verify balanceMax s ssp name signs root last now =
      (s, DResult.err Error.PermissionDenied) := by
  have hdef : get_hash s name = defaultHash := by
    simp [get_hash, mapGetD, habs]
  refine ⟨hdef, ?_⟩
  unfold upload_searched_info
  rw [hdef]
  have hprov : defaultHash.provider ≠ ssp := fun hcontra => hne (hcontra.symm)
  simp [hprov]

/-- C10 witness: account `7` commits on the never-registered name `[5]`
in the genesis state and is denied with no state change. -/
theorem upload_unregistered_permission_denied_witness :
    get_hash initState [5] = defaultHash ∧
    upload_searched_info alwaysVerify 1000 initState 7 [5] [] [9] none 10 =
      (initState, DResult.err Error.PermissionDenied) :=
  upload_unregistered_permission_denied alwaysVerify 1000 initState 7 [5] [] [9] none 10
    (by decide) (by decide)

/-- C9: the three query dispatchables leave the state exactly as read and
always return a successful dispatch result, for every state and every
argument. -/
theorem queries_readonly (s : State) (tags : List Tag) (name : Name) :
    (recommend_ss s).1 = s ∧ (recommend_ss s).2.1 = DResult.ok ∧
    (get_ss_by_tags s tags).1 = s ∧ (get_ss_by_tags s tags).2.1 = DResult.ok ∧
    (get_ss_by_name s name).1 = s ∧ (get_ss_by_name s name).2.1 = DResult.ok := by
  exact ⟨rfl, rfl, rfl, rfl, rfl, rfl⟩

end Search
